import Mathlib

/-!
Verification of the Poseidon dispatch-and-routing engine.

Shallow embedding of `poseidon/workflows/async_dispatcher.py` and
`poseidon/workflows/hierarchical_graph.py` (plus the registry semantics of
`poseidon/agents/registry.py`), with theorems settling the frozen claims
about the specification.

Conventions of the embedding:
* Python machine state (task-state store, guardrail cache) is explicit state
  passing; maps are functions `String → Option _`.
* A task callable is modelled by the outcome of its n-th invocation,
  `beh : Nat → Except String α` (`Except.error` = the call raised).
* Wall-clock timestamps are integers threaded explicitly; only their
  presence/absence and differences matter to the code under verification.
* Fallible Python code returns `Except`; raised exceptions that the source
  catches are modelled as data reaching the corresponding handler.
-/

namespace Poseidon

/-! ## Async dispatcher (`async_dispatcher.py`) -/

/-- The five lifecycle values of `TaskState.status`. -/
inductive TaskStatus where
  | queued
  | running
  | retrying
  | completed
  | failed
deriving DecidableEq, Repr

/-- `TaskState` dataclass from `async_dispatcher.py` (lines 18-43).
Metadata is an opaque key/value list. -/
structure TaskState (α : Type) where
  status : TaskStatus := TaskStatus.queued
  result : Option α := none
  error : Option String := none
  attempts : Nat := 0
  max_retries : Nat := 0
  queued_at : Int := 0
  started_at : Option Int := none
  finished_at : Option Int := none
  metadata : Option (List (String × String)) := none
deriving Repr

/-- `_TaskEnvelope` dataclass (lines 46-55).  The callable together with its
arguments is modelled by the outcome of each invocation: `beh n` is what the
n-th call of `func(*args, **kwargs)` does (`Except.error` = it raised). -/
structure TaskEnvelope (α : Type) where
  task_id : String
  beh : Nat → Except String α
  retries : Nat
  metadata : Option (List (String × String)) := none

/-- The initial `TaskState` inserted by `submit` (line 107):
`TaskState(max_retries=envelope.retries, metadata=metadata)` where
`envelope.retries = max(0, retries)` (line 103). -/
def initialTaskState (α : Type) (retries : Int)
    (metadata : Option (List (String × String))) (now : Int) : TaskState α :=
  { status := TaskStatus.queued
    max_retries := (max 0 retries).toNat
    queued_at := now
    metadata := metadata }

/-- `AsyncTaskDispatcher.submit` (lines 88-109): generate a fresh id (passed
in as `taskId`, opaque and unique), store the initial state under it, and
enqueue the envelope.  Returns the updated store, the queued envelope, and
the returned task id. -/
def submit {α : Type} (store : String → Option (TaskState α)) (taskId : String)
    (beh : Nat → Except String α) (retries : Int)
    (metadata : Option (List (String × String))) (now : Int) :
    (String → Option (TaskState α)) × TaskEnvelope α × String :=
  let envelope : TaskEnvelope α :=
    { task_id := taskId, beh := beh, retries := (max 0 retries).toNat,
      metadata := metadata }
  (fun k => if k = taskId then some (initialTaskState α retries metadata now) else store k,
   envelope, taskId)

/-- `AsyncTaskDispatcher.result` (lines 111-115): lock-protected lookup
returning a snapshot (`to_dict`) of the state, `none` when unknown. -/
def result {α : Type} (store : String → Option (TaskState α)) (taskId : String) :
    Option (TaskState α) :=
  store taskId

/-- One iteration of the worker loop body for a popped envelope
(`AsyncTaskDispatcher._worker`, lines 123-158): mark `running`, stamp
`started_at`, increment `attempts`, merge metadata, invoke the callable,
stamp `finished_at`, then branch on the outcome.  The returned `Bool` is
`true` exactly when the same envelope was re-enqueued (line 153). -/
def workerStep {α : Type} (env : TaskEnvelope α) (st : TaskState α) (now : Int) :
    TaskState α × Bool :=
  let running : TaskState α :=
    { st with
      status := TaskStatus.running
      started_at := some now
      attempts := st.attempts + 1
      metadata := match st.metadata with
        | none => env.metadata
        | some m => some m }
  match env.beh running.attempts with
  | Except.error e =>
      if running.attempts ≤ env.retries then
        ({ running with
            finished_at := some (now + 1)
            error := some e
            status := TaskStatus.retrying }, true)
      else
        ({ running with
            finished_at := some (now + 1)
            error := some e
            status := TaskStatus.failed }, false)
  | Except.ok v =>
      ({ running with
          finished_at := some (now + 1)
          status := TaskStatus.completed
          result := some v }, false)

/-- The worker loop restricted to one task: keep processing the envelope while
it is re-enqueued.  A requeue happens only while `attempts ≤ retries`, so the
loop body runs at most `retries + 1` times; `fuel` is that bound, passed as
`env.retries + 1 - st.attempts` by callers, making the recursion structural. -/
def workerRun {α : Type} (env : TaskEnvelope α) :
    Nat → TaskState α → Int → TaskState α
  | 0, st, _ => st
  | fuel + 1, st, now =>
      let r := workerStep env st now
      if r.2 then workerRun env fuel r.1 (now + 2) else r.1

/-- Full lifecycle of one submitted task: `submit` followed by the worker
processing the envelope (and its requeues) to a terminal state. -/
def runTask {α : Type} (beh : Nat → Except String α) (retries : Int) : TaskState α :=
  let envelope : TaskEnvelope α :=
    { task_id := "task", beh := beh, retries := (max 0 retries).toNat }
  workerRun envelope (envelope.retries + 1) (initialTaskState α retries none 0) 1

/-! ## Module resolver (`hierarchical_graph.py`, registry semantics from
`agents/registry.py` and `utils/config_loader.py`) -/

/-- Python's `str.lower()` (ASCII range, which covers all module names and
keywords in the source). -/
def pyLower (s : String) : String := String.mk (s.data.map Char.toLower)

/-- Python's `str.strip()`: remove leading and trailing whitespace. -/
def pyStrip (s : String) : String :=
  String.mk (((s.data.dropWhile Char.isWhitespace).reverse.dropWhile
    Char.isWhitespace).reverse)

/-- Python's non-overlapping substring count (`str.count`), on char lists.
`fuel` is the length of the scanned list, which bounds the recursion: every
step consumes at least one character of a non-empty pattern. -/
def countOccurAux (pat : List Char) : Nat → List Char → Nat
  | 0, _ => 0
  | fuel + 1, s =>
    match s with
    | [] => 0
    | _ :: rest =>
      if pat.isPrefixOf s then 1 + countOccurAux pat fuel (s.drop pat.length)
      else countOccurAux pat fuel rest

/-- `text.count(hint)`: non-overlapping occurrences; an empty pattern counts
`len(text) + 1` times, as in Python. -/
def strCount (s pat : String) : Nat :=
  if pat.data.isEmpty then s.data.length + 1
  else countOccurAux pat.data s.data.length s.data

/-- The `_MODULE_HINTS` keyword table (`hierarchical_graph.py` lines 118-185),
in source insertion order. -/
def MODULE_HINTS : List (String × List String) :=
  [("sales", ["sale", "revenue", "customer", "upsell", "pipeline", "quote",
      "margin", "order"]),
   ("purchasing", ["purchase", "supplier", "procure", "po", "vendor",
      "sourcing", "buy"]),
   ("logistics", ["inventory", "logistic", "stock", "warehouse", "shipping",
      "delivery", "fulfillment", "transport"]),
   ("manufacturing", ["production", "manufactur", "bom", "work order",
      "assembly", "factory", "line"]),
   ("accounting", ["invoice", "journal", "ledger", "ap ", "ar ", "expense",
      "financial", "reconcile"]),
   ("communications", ["email", "notify", "escalate", "message", "alert",
      "contact", "outreach"]),
   ("inference", ["recommend", "inference", "predict", "scenario", "forecast",
      "risk", "opportunity"])]

/-- The registry state the resolver reads: `AgentRegistry.get_available_modules()`
(keys of the loaded factory map), `AgentRegistry.get_enabled_modules()`
(`_enabled`), and the `enabled_modules` feature-flag list from
`get_enabled_modules()` in `config_loader.py`. -/
structure Registry where
  available : List String
  enabled : List String
  configFlags : List String

/-- `SupervisorWorkflow._is_module_enabled` (lines 200-209): registry enabled
set when non-empty, else config flags when non-empty, else availability. -/
def isModuleEnabled (reg : Registry) (m : String) : Bool :=
  if !reg.enabled.isEmpty then reg.enabled.contains m
  else if !reg.configFlags.isEmpty then reg.configFlags.contains m
  else reg.available.contains m

/-- Python's string `<` (lexicographic on code points), on char lists. -/
def lexLe : List Char → List Char → Bool
  | [], _ => true
  | _ :: _, [] => false
  | a :: as, b :: bs =>
      if a.toNat < b.toNat then true
      else if b.toNat < a.toNat then false
      else lexLe as bs

/-- `a <= b` for Python strings, comparing code points lexicographically. -/
def pyStrLe (a b : String) : Bool := lexLe a.data b.data

/-- Binary minimum under the Python string order. -/
def strMinP (a b : String) : String := if pyStrLe a b then a else b

/-- `sorted(l)[0]` for a non-empty collection of module names: the
lexicographically least element. -/
def sortedHead (l : List String) : String := l.foldl strMinP (l.headD "")

/-- `SupervisorWorkflow._default_module` (lines 211-222).  Raises
`RuntimeError` when no agents are registered. -/
def defaultModule (reg : Registry) : Except String String :=
  if !reg.enabled.isEmpty then
    if reg.enabled.contains "inference" then Except.ok "inference"
    else Except.ok (sortedHead reg.enabled)
  else if !reg.available.isEmpty then
    if reg.available.contains "inference" then Except.ok "inference"
    else Except.ok (sortedHead reg.available)
  else Except.error "No agents are registered in the registry."

/-- One entry of the `scores` dict built by `_infer_module` (lines 230-235):
for an available module, `count = sum(text.count(hint) for hint in hints if
hint)`, recorded only `if count`. -/
def moduleCount (reg : Registry) (text : String) (p : String × List String) :
    Option (String × Nat) :=
  if reg.available.contains p.1 then
    let count := (p.2.filter (fun h => h ≠ "")).foldl
      (fun acc hint => acc + strCount text hint) 0
    if count ≠ 0 then some (p.1, count) else none
  else none

/-- `max(scores.items(), key=lambda item: item[1])[0]` over the insertion-order
entries (line 238): Python's `max` keeps the first of the maximal items. -/
def pickBest : List (String × Nat) → Option String
  | [] => none
  | x :: xs =>
      some ((xs.foldl (fun best item => if item.2 > best.2 then item else best) x).1)

/-- `SupervisorWorkflow._infer_module` (lines 224-238): lowercase the prompt;
bail out on blank text; score each *available* module of the hint table in
table order; return the first module attaining the maximal non-zero score. -/
def inferModule (reg : Registry) (prompt : String) : Option String :=
  let text := pyLower prompt
  if pyStrip text = "" then none
  else pickBest (MODULE_HINTS.filterMap (moduleCount reg text))

/-- `SupervisorWorkflow._resolve_module` (lines 240-249): a non-empty,
known, enabled explicit candidate wins; otherwise keyword inference on the
input text, accepted only if enabled; otherwise the default module. -/
def resolveModule (reg : Registry) (requestedModule : Option String)
    (inputText : Option String) : Except String String :=
  let candidate := pyLower (pyStrip (requestedModule.getD ""))
  let fallback : Except String String :=
    match inferModule reg (inputText.getD "") with
    | some inferred =>
        if isModuleEnabled reg inferred then Except.ok inferred
        else defaultModule reg
    | none => defaultModule reg
  if candidate ≠ "" ∧ reg.available.contains candidate ∧ isModuleEnabled reg candidate then
    Except.ok candidate
  else fallback

/-- Modelled from the claim's words, for the refinement comparison of C3:
the score of one module's keyword list is the sum of case-insensitive
substring occurrence counts of its keywords in the free text. -/
def hintScore (text : String) (hints : List String) : Nat :=
  (hints.map (fun h => strCount (pyLower text) h)).sum

/-- The registry with every source module (`_AGENT_PATHS` order) registered
and enabled. -/
def regAll : Registry :=
  { available := ["sales", "purchasing", "logistics", "manufacturing",
      "accounting", "inference", "communications"]
    enabled := ["sales", "purchasing", "logistics", "manufacturing",
      "accounting", "inference", "communications"]
    configFlags := [] }

/-- A reachable registry state with no enabled module: feature flags name no
registered module (`register_agents` then computes `_enabled = flags ∩ map = ∅`),
while all source modules stay available. -/
def regNoneEnabled : Registry :=
  { available := ["sales", "purchasing", "logistics", "manufacturing",
      "accounting", "inference", "communications"]
    enabled := []
    configFlags := ["bogus"] }

/-! ## Guardrail engine (`hierarchical_graph.py` lines 24-35, 251-345) -/

/-- `GuardrailResult` dataclass (lines 24-35). -/
structure GuardrailResult where
  ok : Bool
  message : Option String := none
deriving DecidableEq, Repr

/-- `GuardrailResult.success()`. -/
def GuardrailResult.success : GuardrailResult := { ok := true }

/-- `GuardrailResult.failure(message)`. -/
def GuardrailResult.failure (msg : String) : GuardrailResult :=
  { ok := false, message := some msg }

/-- Python truthiness of an optional string (`None` and `""` are falsy). -/
def truthyOptStr : Option String → Bool
  | none => false
  | some s => s != ""

/-- The per-module `freshness` guardrail configuration entry: `ttl_seconds`
(default 300), `table`, `timestamp_column`. -/
structure FreshConfig where
  ttl_seconds : Option Int := none
  table : Option String := none
  timestamp_column : Option String := none
deriving Repr

/-- Parsed JSON payload returned by the freshness predicate: whether an
`error` key is present (with its string value), and the `latest_timestamp`
value (`none` = key absent or JSON null). -/
structure FreshPayload where
  errorKey : Option String := none
  latest_timestamp : Option Int := none
deriving DecidableEq, Repr

/-- One raw answer from `freshness_tool.func`, after `json.loads`:
unparsable text or a parsed payload. -/
inductive FreshOutcome where
  | invalidJson (msg : String)
  | payload (d : FreshPayload)

/-- Pointwise map update used for `self._freshness_cache[module] = entry`. -/
def updateMap {β : Type} (cache : String → Option β) (k : String) (v : β) :
    String → Option β :=
  fun x => if x = k then some v else cache x

/-- The part of `_run_freshness_guardrail` after the cache check (lines
265-287): skip on incomplete config, else invoke the predicate (`tool calls`
is the outcome of the invocation numbered `calls`), cache the parsed payload
at the current time, and derive the verdict.  Returns the verdict, the new
cache and the new invocation count. -/
def freshnessEvaluate (module : String) (config : FreshConfig)
    (cache : String → Option (Int × FreshPayload)) (now : Int)
    (tool : Nat → FreshOutcome) (calls : Nat) :
    GuardrailResult × (String → Option (Int × FreshPayload)) × Nat :=
  if truthyOptStr config.table = false ∨ truthyOptStr config.timestamp_column = false then
    (GuardrailResult.success, cache, calls)
  else
    match tool calls with
    | FreshOutcome.invalidJson msg =>
        let message := "Freshness guardrail returned invalid JSON: " ++ msg
        (GuardrailResult.failure message,
         updateMap cache module (now, { errorKey := some message }), calls + 1)
    | FreshOutcome.payload d =>
        let cache2 := updateMap cache module (now, d)
        if truthyOptStr d.errorKey then
          (GuardrailResult.failure
            ("Freshness guardrail failed: " ++ d.errorKey.getD ""), cache2, calls + 1)
        else if d.latest_timestamp = none then
          (GuardrailResult.failure "Freshness guardrail found no recent data",
           cache2, calls + 1)
        else (GuardrailResult.success, cache2, calls + 1)

/-- `SupervisorWorkflow._run_freshness_guardrail` (lines 251-287): no config
means success; an unexpired cache entry answers from the cached payload
(failure iff it *contains* an `error` key) without invoking the predicate;
otherwise evaluate afresh. -/
def runFreshnessGuardrail (module : String)
    (guardrails : String → Option FreshConfig)
    (cache : String → Option (Int × FreshPayload)) (now : Int)
    (tool : Nat → FreshOutcome) (calls : Nat) :
    GuardrailResult × (String → Option (Int × FreshPayload)) × Nat :=
  match guardrails module with
  | none => (GuardrailResult.success, cache, calls)
  | some config =>
    let ttl : Int := config.ttl_seconds.getD 300
    match cache module with
    | some (cachedAt, cachedResult) =>
        if now - cachedAt < ttl then
          (if cachedResult.errorKey.isSome then
            GuardrailResult.failure (cachedResult.errorKey.getD "")
          else GuardrailResult.success, cache, calls)
        else freshnessEvaluate module config cache now tool calls
    | none => freshnessEvaluate module config cache now tool calls

/-- One per-module `null_rate` guardrail check entry: `table`, `column`,
`max_null_rate`, optional `where` filter.  Rates and thresholds are exact
rationals standing for the Python floats. -/
structure NullCheck where
  table : Option String := none
  column : Option String := none
  max_null_rate : Option ℚ := none
  whereClause : Option String := none
deriving Repr

/-- Parsed JSON payload returned by the null-rate predicate. -/
structure NullPayload where
  errorKey : Option String := none
  null_rate : Option ℚ := none
deriving Repr

/-- One raw answer from `null_rate_tool.func`, after `json.loads`. -/
inductive NullOutcome where
  | invalidJson (msg : String)
  | payload (d : NullPayload)

/-- The loop of `_run_null_rate_guardrail` (lines 297-336): skip incomplete
checks, fail on predicate error / missing rate / rate above threshold, else
move to the next check.  `calls` counts predicate invocations. -/
def runNullChecks (checks : List NullCheck) (tool : Nat → NullOutcome)
    (calls : Nat) : GuardrailResult × Nat :=
  match checks with
  | [] => (GuardrailResult.success, calls)
  | check :: rest =>
    match check.table, check.column, check.max_null_rate with
    | some t, some c, some thr =>
      if t = "" ∨ c = "" then runNullChecks rest tool calls
      else
        match tool calls with
        | NullOutcome.invalidJson msg =>
            (GuardrailResult.failure
              ("Null-rate guardrail returned invalid JSON: " ++ msg), calls + 1)
        | NullOutcome.payload d =>
            if truthyOptStr d.errorKey then
              (GuardrailResult.failure
                ("Null-rate guardrail failed: " ++ d.errorKey.getD ""), calls + 1)
            else
              match d.null_rate with
              | none =>
                  (GuardrailResult.failure "Null-rate guardrail returned no rate",
                   calls + 1)
              | some rate =>
                  if rate > thr then
                    (GuardrailResult.failure
                      ("Null-rate guardrail exceeded for " ++ t ++ "." ++ c),
                     calls + 1)
                  else runNullChecks rest tool (calls + 1)
    | _, _, _ => runNullChecks rest tool calls

/-- `SupervisorWorkflow._run_null_rate_guardrail` (lines 289-336): a falsy
per-module config means success; a single dict entry is normalized to a
one-element list (already reflected in the `List NullCheck` representation);
there is no cache — every call walks the checks. -/
def runNullRateGuardrail (module : String)
    (guardrails : String → Option (List NullCheck))
    (tool : Nat → NullOutcome) (calls : Nat) : GuardrailResult × Nat :=
  match guardrails module with
  | none => (GuardrailResult.success, calls)
  | some checks => runNullChecks checks tool calls

/-! ## Workflow executor (`hierarchical_graph.py` lines 38-116, 338-548) -/

/-- Opaque structured values of request/response payloads (Python/JSON). -/
inductive PyVal where
  | pyNone
  | pyStr (s : String)
  | pyInt (n : Int)
  | pyRat (q : ℚ)
  | pyBool (b : Bool)
  | pyList (xs : List PyVal)
  | pyDict (kvs : List (String × PyVal))

/-- Dict lookup on an insertion-ordered association list. -/
def rgetVal (r : List (String × PyVal)) (k : String) : Option PyVal :=
  (r.find? (fun kv => kv.1 == k)).map (fun kv => kv.2)

/-- Dict assignment `r[k] = v`: overwrite in place or append. -/
def rsetVal (r : List (String × PyVal)) (k : String) (v : PyVal) :
    List (String × PyVal) :=
  if (r.find? (fun kv => kv.1 == k)).isSome then
    r.map (fun kv => if kv.1 == k then (k, v) else kv)
  else r ++ [(k, v)]

/-- `r.setdefault(k, v)`. -/
def rsetdefault (r : List (String × PyVal)) (k : String) (v : PyVal) :
    List (String × PyVal) :=
  if (r.find? (fun kv => kv.1 == k)).isSome then r else r ++ [(k, v)]

/-- `str(x or default)` for optional strings (empty string is falsy). -/
def orTruthy (o : Option String) (d : String) : String :=
  match o with
  | none => d
  | some s => if s = "" then d else s

/-- `SimpleContext` dataclass (lines 38-59). -/
structure SimpleContext where
  summary : Option String := none
  metadata : List (String × PyVal) := []

/-- `SimpleContext.is_empty`: `not (summary or metadata)`. -/
def SimpleContext.isEmptyCtx (c : SimpleContext) : Bool :=
  !(truthyOptStr c.summary || !c.metadata.isEmpty)

/-- `SimpleContext.to_legacy_dict`. -/
def SimpleContext.toLegacyDict (c : SimpleContext) : List (String × PyVal) :=
  (if truthyOptStr c.summary then [("summary", PyVal.pyStr (c.summary.getD ""))]
   else []) ++
  (if !c.metadata.isEmpty then [("metadata", PyVal.pyDict c.metadata)] else [])

/-- `json.dumps` of a payload value (stdlib collaborator; string escaping is
elided — no claim depends on the rendered text). -/
def pyDumps : PyVal → String
  | PyVal.pyNone => "null"
  | PyVal.pyStr s => "\"" ++ s ++ "\""
  | PyVal.pyInt n => toString n
  | PyVal.pyRat q => toString q
  | PyVal.pyBool b => if b then "true" else "false"
  | PyVal.pyList xs =>
      "[" ++ String.intercalate ", " (xs.attach.map (fun x => pyDumps x.1)) ++ "]"
  | PyVal.pyDict kvs =>
      "\x7b" ++ String.intercalate ", "
        (kvs.attach.map (fun kv => "\"" ++ kv.1.1 ++ "\": " ++ pyDumps kv.1.2)) ++
      "\x7d"
decreasing_by
  · have h := List.sizeOf_lt_of_mem x.2
    simp only [PyVal.pyList.sizeOf_spec]
    omega
  · have h := List.sizeOf_lt_of_mem kv.2
    obtain ⟨⟨a, b⟩, hk⟩ := kv
    simp only [PyVal.pyDict.sizeOf_spec]
    simp only [Prod.mk.sizeOf_spec] at h
    omega

/-- `SimpleContext.render_text`. -/
def SimpleContext.renderText (c : SimpleContext) : String :=
  if truthyOptStr c.summary then c.summary.getD ""
  else if !c.metadata.isEmpty then pyDumps (PyVal.pyDict c.metadata)
  else ""

/-- `AgentTaskInput` dataclass (lines 62-89). -/
structure AgentTaskInput where
  module : String
  prompt : String
  session_id : String := "default"
  parameters : List (String × PyVal) := []

/-- The query payload `route_query` receives (`query_data`). -/
structure QueryData where
  input : Option String := none
  session_id : Option String := none
  trace_id : Option String := none
  parameters : Option (List (String × PyVal)) := none

/-- `AgentTaskInput.from_workflow` (lines 69-78): strip the input text, fail
fast on a blank prompt, default the session, normalize parameters. -/
def AgentTaskInput.fromWorkflow (module : String) (q : QueryData) :
    Except String AgentTaskInput :=
  let prompt := pyStrip (orTruthy q.input "")
  if prompt = "" then Except.error "Input prompt must be provided."
  else Except.ok
    { module := if module = "" then "unknown" else module
      prompt := prompt
      session_id := orTruthy q.session_id "default"
      parameters := q.parameters.getD [] }

/-- `AgentTaskOutput` dataclass (lines 92-116).  Tool-trace and handoff
entries are modelled as already-dumpable payload values. -/
structure AgentTaskOutput where
  result : List (String × PyVal)
  session_id : String
  module : String
  metrics : Option (List (String × PyVal)) := none
  context : SimpleContext := {}
  tool_traces : List PyVal := []
  handoffs : List PyVal := []

/-- What `agent.execute` returned (lines 406-419): a typed output, a raw
dict, or a value of an unsupported type (its type repr recorded). -/
inductive AgentRaw where
  | output (o : AgentTaskOutput)
  | dict (d : List (String × PyVal))
  | other (typeRepr : String)

/-- The observable outcome of `self.get_agent(module)` plus
`agent.execute(...)` (lines 405-453): success, a raised `ValueError`
(agent lookup failure), or any other raised exception. -/
inductive ExecOutcome where
  | ok (raw : AgentRaw)
  | valueError (msg : String)
  | exc (msg : String)

/-- The collaborators and configuration `route_query` reads: registry state,
the `POSEIDON_ENABLE_CONTRACTS` flag, the guardrail config blocks, the two
data-quality predicates (indexed by invocation number), and the domain
handlers. -/
structure RouteEnv where
  reg : Registry
  contractsEnabled : Bool
  freshnessCfg : String → Option FreshConfig
  nullRateCfg : String → Option (List NullCheck)
  freshTool : Nat → FreshOutcome
  nullTool : Nat → NullOutcome
  execAgent : String → AgentTaskInput → ExecOutcome

/-- The mutable guardrail state threaded through a run: the freshness cache
(class attribute `_freshness_cache`), the predicate invocation counters, and
the current clock. -/
structure GuardState where
  freshCache : String → Option (Int × FreshPayload)
  freshCalls : Nat := 0
  nullCalls : Nat := 0
  now : Int := 0

/-- `SupervisorWorkflow._run_guardrails` (lines 338-345): bypass when
contracts are disabled; freshness first, short-circuiting null-rate. -/
def runGuardrails (env : RouteEnv) (gs : GuardState) (module : String) :
    GuardrailResult × GuardState :=
  if !env.contractsEnabled then (GuardrailResult.success, gs)
  else
    let fr := runFreshnessGuardrail module env.freshnessCfg gs.freshCache gs.now
      env.freshTool gs.freshCalls
    let gs1 := { gs with freshCache := fr.2.1, freshCalls := fr.2.2 }
    if !fr.1.ok then (fr.1, gs1)
    else
      let nr := runNullRateGuardrail module env.nullRateCfg env.nullTool gs.nullCalls
      (nr.1, { gs1 with nullCalls := nr.2 })

/-- `if output.metrics:` — a non-empty metrics dict is truthy. -/
def metricsTruthy : Option (List (String × PyVal)) → Bool
  | none => false
  | some l => !l.isEmpty

/-- `True` for the JSON/Python `None` value. -/
def isPyNone : PyVal → Bool
  | PyVal.pyNone => true
  | _ => false

/-- `trace.model_dump(exclude_none=True)` on an already-dumped trace value:
drop `None`-valued keys of a dict. -/
def excludeNoneShallow : PyVal → PyVal
  | PyVal.pyDict kvs => PyVal.pyDict (kvs.filter (fun kv => !isPyNone kv.2))
  | v => v

/-- The response-merging tail of `route_query` (lines 457-473): copy the
result dict, attach `_metrics`/`_context`/`_tool_traces`/`_handoffs` when
present, then `setdefault` `_module`, `_requested_module` (when an explicit
request was overridden), `_session_id` and `_trace_id`. -/
def mergeResponse (requested resolved traceId : String)
    (output : AgentTaskOutput) : List (String × PyVal) :=
  let r1 := if metricsTruthy output.metrics then
      rsetVal output.result "_metrics" (PyVal.pyDict (output.metrics.getD []))
    else output.result
  let r2 := if !output.context.isEmptyCtx then
      rsetdefault (rsetVal r1 "_context" (PyVal.pyDict output.context.toLegacyDict))
        "_context_text" (PyVal.pyStr output.context.renderText)
    else r1
  let r3 := if !output.tool_traces.isEmpty then
      rsetVal r2 "_tool_traces" (PyVal.pyList (output.tool_traces.map excludeNoneShallow))
    else r2
  let r4 := if !output.handoffs.isEmpty then
      rsetVal r3 "_handoffs" (PyVal.pyList output.handoffs)
    else r3
  let r5 := rsetdefault r4 "_module" (PyVal.pyStr resolved)
  let r6 := if requested ≠ "" ∧ requested ≠ resolved then
      rsetdefault r5 "_requested_module" (PyVal.pyStr requested)
    else r5
  let r7 := rsetdefault r6 "_session_id" (PyVal.pyStr output.session_id)
  rsetdefault r7 "_trace_id" (PyVal.pyStr traceId)

/-- The body of `route_query` after module resolution (lines 366-502):
disabled module, guardrail failure, invalid payload and handler exceptions
each yield an `error` response; a successful handler output is merged into
the response map.  Telemetry emission (`log_agent_action`,
`log_application_event`) is fire-and-forget (`_safe_execute`) and does not
affect the returned value. -/
def routeQueryCore (env : RouteEnv) (gs : GuardState)
    (requested resolved traceId : String) (query : QueryData) :
    List (String × PyVal) × GuardState :=
  if !isModuleEnabled env.reg resolved then
    ([("error", PyVal.pyStr ("Module '" ++ resolved ++ "' is disabled or unknown"))], gs)
  else
    let gr := runGuardrails env gs resolved
    if !gr.1.ok then
      ([("error", PyVal.pyStr (gr.1.message.getD ""))], gr.2)
    else
      match AgentTaskInput.fromWorkflow resolved query with
      | Except.error msg => ([("error", PyVal.pyStr msg)], gr.2)
      | Except.ok agentInput =>
        match env.execAgent resolved agentInput with
        | ExecOutcome.valueError msg => ([("error", PyVal.pyStr msg)], gr.2)
        | ExecOutcome.exc msg => ([("error", PyVal.pyStr msg)], gr.2)
        | ExecOutcome.ok (AgentRaw.other t) =>
            ([("error", PyVal.pyStr
              ("Agent '" ++ resolved ++ "' returned unsupported payload type: " ++ t))], gr.2)
        | ExecOutcome.ok (AgentRaw.output o) =>
            (mergeResponse requested resolved traceId o, gr.2)
        | ExecOutcome.ok (AgentRaw.dict d) =>
            (mergeResponse requested resolved traceId
              { result := d, session_id := agentInput.session_id, module := resolved },
             gr.2)

/-- `SupervisorWorkflow.route_query` (lines 347-504): fix the trace id,
normalize the requested module, resolve it (a `RuntimeError` from
`_default_module` propagates), then run the core.  Returns the response map
and the updated guardrail state. -/
def routeQuery (env : RouteEnv) (gs : GuardState) (module : Option String)
    (query : QueryData) (workflowRunId : Option String) :
    Except String (List (String × PyVal) × GuardState) :=
  let traceId := orTruthy query.trace_id (orTruthy workflowRunId "N/A")
  let requested := pyLower (pyStrip (module.getD ""))
  match resolveModule env.reg (some requested) query.input with
  | Except.error e => Except.error e
  | Except.ok resolved =>
      Except.ok (routeQueryCore env gs requested resolved traceId query)

/-- One step of `execute_workflow` input: `module`, `input`, `session_id`. -/
structure WorkflowStep where
  module : Option String := none
  input : Option String := none
  session_id : Option String := none

/-- `SupervisorWorkflow.execute_workflow` (lines 506-548): run the steps
strictly sequentially, appending `{module: result}` for each; telemetry
events before/after each step do not affect the collected results. -/
def executeWorkflow (env : RouteEnv) (gs : GuardState)
    (steps : List WorkflowStep) (workflowRunId traceId : Option String) :
    Except String (List (Option String × List (String × PyVal)) × GuardState) :=
  match steps with
  | [] => Except.ok ([], gs)
  | step :: rest =>
    let payload : QueryData :=
      { input := step.input
        session_id := some (step.session_id.getD "default")
        trace_id := traceId }
    match routeQuery env gs step.module payload workflowRunId with
    | Except.error e => Except.error e
    | Except.ok (resp, gs1) =>
      match executeWorkflow env gs1 rest workflowRunId traceId with
      | Except.error e => Except.error e
      | Except.ok (rs, gs2) => Except.ok ((step.module, resp) :: rs, gs2)

/-! ## Concrete fixtures used by witnesses and counterexamples -/

/-- A complete null-rate check with `max_null_rate = 0.1`. -/
def nullCheck01 : NullCheck :=
  { table := some "t", column := some "c", max_null_rate := some (1/10 : ℚ) }

/-- A null-rate predicate returning rate 0.15 on every invocation. -/
def nullTool015 : Nat → NullOutcome :=
  fun _ => NullOutcome.payload { errorKey := none, null_rate := some (15/100 : ℚ) }

/-- Guardrail environment mapping every module to the single 0.1 check. -/
def nullCfg01 : String → Option (List NullCheck) := fun _ => some [nullCheck01]

/-- Workflow fixture: all modules enabled, guardrails off, the logistics
handler always raises, every other handler answers a dict. -/
def envW : RouteEnv :=
  { reg := regAll
    contractsEnabled := false
    freshnessCfg := fun _ => none
    nullRateCfg := fun _ => none
    freshTool := fun _ => FreshOutcome.payload {}
    nullTool := fun _ => NullOutcome.payload {}
    execAgent := fun m _ =>
      if m = "logistics" then ExecOutcome.exc "boom"
      else ExecOutcome.ok (AgentRaw.dict [("answer", PyVal.pyStr "done")]) }

/-- Empty guardrail state at time 0. -/
def gsW : GuardState := { freshCache := fun _ => none }

/-- Four workflow steps: the second routes to the raising handler, the
fourth has a blank input that fails validation. -/
def stepsW : List WorkflowStep :=
  [{ module := some "sales", input := some "check the sale numbers" },
   { module := some "logistics", input := some "inventory status" },
   { module := some "accounting", input := some "reconcile the ledger" },
   { module := some "sales", input := some "   " }]

/-- Workflow fixture with contracts enabled and a freshness predicate that
reports an error for every module, so every step's guardrail fails. -/
def envG : RouteEnv :=
  { reg := regAll
    contractsEnabled := true
    freshnessCfg := fun _ =>
      some { table := some "t", timestamp_column := some "ts" }
    nullRateCfg := fun _ => none
    freshTool := fun _ => FreshOutcome.payload { errorKey := some "stale" }
    nullTool := fun _ => NullOutcome.payload {}
    execAgent := fun _ _ =>
      ExecOutcome.ok (AgentRaw.dict [("answer", PyVal.pyStr "done")]) }

/-! ## Dispatcher theorems -/

/-- One-step unfolding of the worker loop. -/
theorem workerRun_unfold {α : Type} (env : TaskEnvelope α) (fuel : Nat)
    (st : TaskState α) (now : Int) :
    workerRun env (fuel + 1) st now =
      (if (workerStep env st now).2 then
        workerRun env fuel (workerStep env st now).1 (now + 2)
      else (workerStep env st now).1) := rfl

/-- A permanently failing callable drives the worker loop to `failed` with
exactly `retries + 1` attempts (each attempt is one invocation). -/
theorem workerRun_fail {α : Type} (env : TaskEnvelope α)
    (hfail : ∀ n, ∃ e, env.beh n = Except.error e) :
    ∀ (m : Nat) (st : TaskState α) (now : Int), st.attempts + m = env.retries →
      (workerRun env (m + 1) st now).status = TaskStatus.failed ∧
      (workerRun env (m + 1) st now).attempts = env.retries + 1 := by
  intro m
  induction m with
  | zero =>
    intro st now h
    obtain ⟨e, he⟩ := hfail (st.attempts + 1)
    have hc : ¬ (st.attempts + 1 ≤ env.retries) := by omega
    rw [workerRun_unfold]
    simp only [workerStep, he, hc, if_false]
    constructor
    · rfl
    · simpa using by omega
  | succ m ih =>
    intro st now h
    obtain ⟨e, he⟩ := hfail (st.attempts + 1)
    have hc : st.attempts + 1 ≤ env.retries := by omega
    rw [workerRun_unfold]
    simp only [workerStep, he, hc, if_true]
    refine ih _ (now + 2) ?_
    simp only
    omega

/-- A callable that first succeeds on attempt `k`, having failed on all
earlier attempts, drives the worker loop to `completed` with `attempts = k`
and the result stored, provided `k` is within the attempt budget. -/
theorem workerRun_succeed {α : Type} (env : TaskEnvelope α) :
    ∀ (m : Nat) (st : TaskState α) (now : Int) (k : Nat) (v : α),
      env.beh k = Except.ok v →
      (∀ j, st.attempts < j → j < k → ∃ e, env.beh j = Except.error e) →
      st.attempts + m + 1 = k → k ≤ env.retries + 1 →
      ∀ fuel, m < fuel →
        (workerRun env fuel st now).status = TaskStatus.completed ∧
        (workerRun env fuel st now).attempts = k ∧
        (workerRun env fuel st now).result = some v := by
  intro m
  induction m with
  | zero =>
    intro st now k v hok hprev hm hk fuel hfuel
    obtain ⟨fuel, rfl⟩ : ∃ f, fuel = f + 1 := ⟨fuel - 1, by omega⟩
    have hka : st.attempts + 1 = k := by omega
    rw [← hka] at hok
    rw [workerRun_unfold]
    simp only [workerStep, hok]
    refine ⟨rfl, by simpa using by omega, rfl⟩
  | succ m ih =>
    intro st now k v hok hprev hm hk fuel hfuel
    obtain ⟨fuel, rfl⟩ : ∃ f, fuel = f + 1 := ⟨fuel - 1, by omega⟩
    obtain ⟨e, he⟩ := hprev (st.attempts + 1) (by omega) (by omega)
    have hc : st.attempts + 1 ≤ env.retries := by omega
    rw [workerRun_unfold]
    simp only [workerStep, he, hc, if_true]
    refine ih _ (now + 2) k v hok ?_ ?_ hk fuel (by omega)
    · intro j h1 h2
      refine hprev j ?_ h2
      simp only at h1
      omega
    · simp only
      omega

/-- C1.  For a task submitted with retry budget `r`: a callable that raises on
every invocation is invoked exactly `r + 1` times (the attempts counter is
incremented once per invocation) and ends `failed`; a callable that first
succeeds on attempt `k ≤ r + 1` ends `completed` with `attempts = k`. -/
theorem task_retry_budget_and_success {α : Type} (r : Nat) (beh : Nat → Except String α) :
    ((∀ n, ∃ e, beh n = Except.error e) →
      (runTask beh (r : Int)).status = TaskStatus.failed ∧
      (runTask beh (r : Int)).attempts = r + 1) ∧
    (∀ k v, 1 ≤ k → k ≤ r + 1 → beh k = Except.ok v →
      (∀ j, 1 ≤ j → j < k → ∃ e, beh j = Except.error e) →
      (runTask beh (r : Int)).status = TaskStatus.completed ∧
      (runTask beh (r : Int)).attempts = k ∧
      (runTask beh (r : Int)).result = some v) := by
  have hr : (max 0 (r : Int)).toNat = r := by omega
  constructor
  · intro hfail
    have := workerRun_fail (α := α)
      { task_id := "task", beh := beh, retries := (max 0 (r : Int)).toNat }
      hfail r (initialTaskState α (r : Int) none 0) 1 (by simp [initialTaskState, hr])
    simpa [runTask, hr] using this
  · intro k v hk1 hk hok hprev
    have := workerRun_succeed (α := α)
      { task_id := "task", beh := beh, retries := (max 0 (r : Int)).toNat }
      (k - 1) (initialTaskState α (r : Int) none 0) 1 k v hok
      (by intro j h1 h2; exact hprev j (by simpa [initialTaskState] using h1) h2)
      (by simp [initialTaskState]; omega)
      (by show k ≤ (max 0 (r : Int)).toNat + 1; rw [hr]; exact hk)
      (r + 1) (by omega)
    simpa [runTask, hr] using this

/-- Witness for C1: with budget `r = 2`, a callable failing on attempts 1-2 and
succeeding on attempt 3 ends `completed` with `attempts = 3`; a callable that
always raises ends `failed` with `attempts = 3`. -/
theorem task_retry_budget_and_success_witness :
    (runTask (fun n => if n < 3 then Except.error "e" else Except.ok (7 : Nat))
        ((2 : Nat) : Int)).status = TaskStatus.completed ∧
    (runTask (fun n => if n < 3 then Except.error "e" else Except.ok (7 : Nat))
        ((2 : Nat) : Int)).attempts = 3 ∧
    (runTask (fun _ => Except.error "e") ((2 : Nat) : Int) : TaskState Nat).status =
      TaskStatus.failed ∧
    (runTask (fun _ => Except.error "e") ((2 : Nat) : Int) : TaskState Nat).attempts = 3 := by
  have hs := (task_retry_budget_and_success (α := Nat) 2
      (fun n => if n < 3 then Except.error "e" else Except.ok (7 : Nat))).2
      3 7 (by decide) (by decide) rfl
      (fun j h1 h2 => ⟨"e", by rw [if_pos h2]⟩)
  have hf := (task_retry_budget_and_success (α := Nat) 2
      (fun _ => Except.error "e")).1 (fun n => ⟨"e", rfl⟩)
  exact ⟨hs.1, hs.2.1, hf.1, hf.2⟩

/-- C8 (amended).  In the worker loop, when the callable raises and the
incremented attempt count is still within the budget, the task is set to
`retrying` and the same envelope is re-enqueued (return flag `true`) with the
cumulative attempt count preserved in the stored state; `finished_at` is
stamped at the end of this attempt too (the source stamps it unconditionally
before branching), so a `retrying` task carries the `finished_at` of its most
recent attempt. -/
theorem worker_retry_branch {α : Type} (env : TaskEnvelope α) (st : TaskState α)
    (now : Int) (e : String)
    (herr : env.beh (st.attempts + 1) = Except.error e)
    (hbudget : st.attempts + 1 ≤ env.retries) :
    (workerStep env st now).2 = true ∧
    (workerStep env st now).1.status = TaskStatus.retrying ∧
    (workerStep env st now).1.attempts = st.attempts + 1 ∧
    (workerStep env st now).1.error = some e ∧
    (workerStep env st now).1.finished_at = some (now + 1) ∧
    (workerStep env st now).1.max_retries = st.max_retries := by
  simp [workerStep, herr, hbudget]

/-- Witness for C8 (amended): concrete failing first attempt with budget 1. -/
theorem worker_retry_branch_witness :
    (workerStep { task_id := "t", beh := fun _ => Except.error "boom", retries := 1 }
        (initialTaskState Nat 1 none 0) 1).2 = true ∧
    (workerStep { task_id := "t", beh := fun _ => Except.error "boom", retries := 1 }
        (initialTaskState Nat 1 none 0) 1).1.status = TaskStatus.retrying := by
  have h := worker_retry_branch (α := Nat)
    { task_id := "t", beh := fun _ => Except.error "boom", retries := 1 }
    (initialTaskState Nat 1 none 0) 1 "boom" rfl (by decide)
  exact ⟨h.1, h.2.1⟩

/-- Counterexample for C8 as stated: a reachable `retrying` state (first
failed attempt of a task with budget 1) whose `finished_at` IS recorded —
the worker stamps `finished_at` unconditionally before branching, also on
the re-enqueue path. -/
theorem worker_retrying_has_finishedAt_cex :
    (workerStep { task_id := "t", beh := fun _ => Except.error "boom", retries := 1 }
        (initialTaskState Nat 1 none 0) 1).1.status = TaskStatus.retrying ∧
    (workerStep { task_id := "t", beh := fun _ => Except.error "boom", retries := 1 }
        (initialTaskState Nat 1 none 0) 1).1.finished_at = some 2 ∧
    (workerStep { task_id := "t", beh := fun _ => Except.error "boom", retries := 1 }
        (initialTaskState Nat 1 none 0) 1).1.finished_at ≠ none := by
  refine ⟨rfl, rfl, by simp [workerStep, initialTaskState]⟩

/-- C9.  `submit` (also with a negative `retries` argument) stores an initial
state with status `queued`, `attempts = 0`, `max_retries = max(0, retries)`,
and the returned task id is immediately present in the store, so `result`
returns this snapshot rather than not-found. -/
theorem submit_creates_queued_state {α : Type} (store : String → Option (TaskState α))
    (taskId : String) (beh : Nat → Except String α) (retries : Int)
    (md : Option (List (String × String))) (now : Int) :
    (submit store taskId beh retries md now).2.2 = taskId ∧
    result (submit store taskId beh retries md now).1 taskId =
      some (initialTaskState α retries md now) ∧
    (initialTaskState α retries md now).status = TaskStatus.queued ∧
    (initialTaskState α retries md now).attempts = 0 ∧
    ((initialTaskState α retries md now).max_retries : Int) = max 0 retries := by
  refine ⟨rfl, ?_, rfl, rfl, ?_⟩
  · simp [submit, result]
  · simp [initialTaskState]

/-! ## Resolver theorems -/

theorem lexLe_refl : ∀ a : List Char, lexLe a a = true := by
  intro a
  induction a with
  | nil => rfl
  | cons x xs ih => simp [lexLe, ih]

theorem lexLe_total : ∀ a b : List Char, lexLe a b = true ∨ lexLe b a = true := by
  intro a
  induction a with
  | nil => intro b; exact Or.inl rfl
  | cons x xs ih =>
    intro b
    cases b with
    | nil => exact Or.inr rfl
    | cons y ys =>
      by_cases h1 : x.toNat < y.toNat
      · exact Or.inl (by simp [lexLe, h1])
      · by_cases h2 : y.toNat < x.toNat
        · exact Or.inr (by simp [lexLe, h2])
        · rcases ih ys with h | h
          · exact Or.inl (by simp [lexLe, h1, h2, h])
          · exact Or.inr (by simp [lexLe, h1, h2, h])

theorem lexLe_trans : ∀ a b c : List Char,
    lexLe a b = true → lexLe b c = true → lexLe a c = true := by
  intro a
  induction a with
  | nil => intro b c _ _; rfl
  | cons x xs ih =>
    intro b c hab hbc
    cases b with
    | nil => simp [lexLe] at hab
    | cons y ys =>
      cases c with
      | nil => simp [lexLe] at hbc
      | cons z zs =>
        simp only [lexLe] at hab hbc ⊢
        by_cases h1 : x.toNat < y.toNat
        · by_cases h2 : y.toNat < z.toNat
          · simp [show x.toNat < z.toNat by omega]
          · by_cases h3 : z.toNat < y.toNat
            · simp [h2, h3] at hbc
            · simp [show x.toNat < z.toNat by omega]
        · by_cases h1b : y.toNat < x.toNat
          · simp [h1, h1b] at hab
          · simp only [h1, h1b, if_false] at hab
            by_cases h2 : y.toNat < z.toNat
            · simp [show x.toNat < z.toNat by omega]
            · by_cases h3 : z.toNat < y.toNat
              · simp [h2, h3] at hbc
              · simp only [h2, h3, if_false] at hbc
                have hxz : ¬ x.toNat < z.toNat := by omega
                have hzx : ¬ z.toNat < x.toNat := by omega
                simp only [hxz, hzx, if_false]
                exact ih ys zs hab hbc

theorem foldl_strMin_spec : ∀ (xs : List String) (a : String),
    (xs.foldl strMinP a = a ∨ xs.foldl strMinP a ∈ xs) ∧
    pyStrLe (xs.foldl strMinP a) a = true ∧
    ∀ x ∈ xs, pyStrLe (xs.foldl strMinP a) x = true := by
  intro xs
  induction xs with
  | nil => intro a; exact ⟨Or.inl rfl, lexLe_refl _, by simp⟩
  | cons y ys ih =>
    intro a
    simp only [List.foldl_cons]
    obtain ⟨hmem, hle, hall⟩ := ih (strMinP a y)
    have hmin_a : pyStrLe (strMinP a y) a = true := by
      simp only [strMinP, pyStrLe]
      by_cases h : lexLe a.data y.data = true
      · rw [if_pos h]
        exact lexLe_refl _
      · rw [if_neg h]
        rcases lexLe_total a.data y.data with h' | h'
        · exact absurd h' h
        · exact h'
    have hmin_y : pyStrLe (strMinP a y) y = true := by
      simp only [strMinP, pyStrLe]
      by_cases h : lexLe a.data y.data = true
      · rw [if_pos h]
        exact h
      · rw [if_neg h]
        exact lexLe_refl _
    refine ⟨?_, ?_, ?_⟩
    · rcases hmem with h | h
      · rw [h]
        simp only [strMinP, pyStrLe]
        by_cases hc : lexLe a.data y.data = true
        · rw [if_pos hc]
          exact Or.inl rfl
        · rw [if_neg hc]
          exact Or.inr (List.mem_cons_self _ _)
      · exact Or.inr (List.mem_cons_of_mem _ h)
    · exact lexLe_trans _ _ _ hle hmin_a
    · intro x hx
      rcases List.mem_cons.mp hx with rfl | hx'
      · exact lexLe_trans _ _ _ hle hmin_y
      · exact hall x hx'

theorem sortedHead_spec (l : List String) (h : l ≠ []) :
    sortedHead l ∈ l ∧ ∀ x ∈ l, pyStrLe (sortedHead l) x = true := by
  obtain ⟨a, xs, rfl⟩ : ∃ a xs, l = a :: xs := by
    cases l with
    | nil => exact absurd rfl h
    | cons a xs => exact ⟨a, xs, rfl⟩
  have hstep : sortedHead (a :: xs) = xs.foldl strMinP a := by
    simp only [sortedHead, List.headD, List.foldl_cons]
    have : strMinP a a = a := by unfold strMinP; simp
    rw [this]
  obtain ⟨hmem, hle, hall⟩ := foldl_strMin_spec xs a
  rw [hstep]
  constructor
  · rcases hmem with h' | h'
    · rw [h']; exact List.mem_cons_self _ _
    · exact List.mem_cons_of_mem _ h'
  · intro x hx
    rcases List.mem_cons.mp hx with rfl | hx'
    · exact hle
    · exact hall x hx'

/-- C6 (amended).  Full characterization of `_default_module`, assuming (as
the registry guarantees) that every enabled module is available: it raises a
configuration error iff no modules are registered; with enabled modules it
prefers the designated default "inference" when enabled, else the
lexicographically least enabled module; with no enabled modules it still
prefers "inference" when merely available, else the lexicographically least
available module. -/
theorem default_module_spec (reg : Registry)
    (hsub : ∀ x, x ∈ reg.enabled → x ∈ reg.available) :
    ((∃ e, defaultModule reg = Except.error e) ↔ reg.available = []) ∧
    (reg.enabled ≠ [] →
      if reg.enabled.contains "inference" then
        defaultModule reg = Except.ok "inference"
      else
        defaultModule reg = Except.ok (sortedHead reg.enabled) ∧
        sortedHead reg.enabled ∈ reg.enabled ∧
        ∀ x ∈ reg.enabled, pyStrLe (sortedHead reg.enabled) x = true) ∧
    (reg.enabled = [] → reg.available ≠ [] →
      if reg.available.contains "inference" then
        defaultModule reg = Except.ok "inference"
      else
        defaultModule reg = Except.ok (sortedHead reg.available) ∧
        sortedHead reg.available ∈ reg.available ∧
        ∀ x ∈ reg.available, pyStrLe (sortedHead reg.available) x = true) := by
  refine ⟨?_, ?_, ?_⟩
  · constructor
    · rintro ⟨e, he⟩
      simp only [defaultModule] at he
      cases hen : reg.enabled.isEmpty with
      | true =>
        cases hav : reg.available.isEmpty with
        | true => exact List.isEmpty_iff.mp hav
        | false =>
          rw [hen, hav] at he
          simp at he
          split at he <;> simp at he
      | false =>
        rw [hen] at he
        simp at he
        split at he <;> simp at he
    · intro hav
      have hen : reg.enabled = [] := by
        cases h : reg.enabled with
        | nil => rfl
        | cons x xs =>
          have := hsub x (by rw [h]; exact List.mem_cons_self _ _)
          rw [hav] at this
          exact absurd this (List.not_mem_nil x)
      refine ⟨"No agents are registered in the registry.", ?_⟩
      simp [defaultModule, hen, hav]
  · intro hne
    have hen : reg.enabled.isEmpty = false := by
      cases h : reg.enabled with
      | nil => exact absurd h hne
      | cons x xs => rfl
    have hdef : defaultModule reg =
        (if reg.enabled.contains "inference" then Except.ok "inference"
         else Except.ok (sortedHead reg.enabled)) := by
      simp only [defaultModule, hen]
      rfl
    by_cases hc : reg.enabled.contains "inference"
    · rw [if_pos hc, hdef, if_pos hc]
    · rw [if_neg hc]
      obtain ⟨hmem, hall⟩ := sortedHead_spec reg.enabled hne
      exact ⟨by rw [hdef, if_neg hc], hmem, hall⟩
  · intro hen hne
    have hen' : reg.enabled.isEmpty = true := by rw [hen]; rfl
    have hav : reg.available.isEmpty = false := by
      cases h : reg.available with
      | nil => exact absurd h hne
      | cons x xs => rfl
    have hdef : defaultModule reg =
        (if reg.available.contains "inference" then Except.ok "inference"
         else Except.ok (sortedHead reg.available)) := by
      simp only [defaultModule, hen', hav]
      rfl
    by_cases hc : reg.available.contains "inference"
    · rw [if_pos hc, hdef, if_pos hc]
    · rw [if_neg hc]
      obtain ⟨hmem, hall⟩ := sortedHead_spec reg.available hne
      exact ⟨by rw [hdef, if_neg hc], hmem, hall⟩

/-- Witness for C6 (amended): the all-modules registry designates
"inference"; a no-enabled-modules registry also yields "inference". -/
theorem default_module_spec_witness :
    defaultModule regAll = Except.ok "inference" ∧
    defaultModule regNoneEnabled = Except.ok "inference" := by
  constructor
  · have h := (default_module_spec regAll (by decide)).2.1 (by decide)
    rw [if_pos (show regAll.enabled.contains "inference" = true from rfl)] at h
    exact h
  · have h := (default_module_spec regNoneEnabled (by decide)).2.2 rfl (by decide)
    rw [if_pos (show regNoneEnabled.available.contains "inference" = true from rfl)] at h
    exact h

/-- Counterexample for C6 as stated: with no enabled modules (a reachable
registry state: feature flags name no registered module) the code returns
"inference", which is neither the first available module ("sales" in
registration order) nor the lexicographically first available module
("accounting"); the claimed fallback "else to the first available module"
does not hold. -/
theorem default_module_fallback_cex :
    defaultModule regNoneEnabled = Except.ok "inference" ∧
    regNoneEnabled.enabled = [] ∧
    regNoneEnabled.available.head? = some "sales" ∧
    sortedHead regNoneEnabled.available = "accounting" ∧
    "inference" ≠ "sales" ∧ "inference" ≠ "accounting" :=
  ⟨rfl, rfl, rfl, by decide, by decide, by decide⟩

/-- C4.  An explicit request whose normalized form (stripped, lowercased) is
non-empty, registered, and enabled resolves to exactly that module, for every
free-text input. -/
theorem resolve_explicit_module (reg : Registry) (req input : Option String)
    (hne : pyLower (pyStrip (req.getD "")) ≠ "")
    (hav : reg.available.contains (pyLower (pyStrip (req.getD ""))) = true)
    (hen : isModuleEnabled reg (pyLower (pyStrip (req.getD ""))) = true) :
    resolveModule reg req input = Except.ok (pyLower (pyStrip (req.getD ""))) := by
  simp only [resolveModule]
  rw [if_pos ⟨hne, hav, hen⟩]

/-- Witness for C4: an explicit "sales" request wins although the free text
contains only logistics keywords. -/
theorem resolve_explicit_module_witness :
    resolveModule regAll (some " Sales ")
      (some "move all inventory to the warehouse") = Except.ok "sales" := by
  have h := resolve_explicit_module regAll (some " Sales ")
    (some "move all inventory to the warehouse") (by decide) (by decide) (by decide)
  exact h.trans rfl

theorem foldl_pickMax_eq (e : String × Nat) :
    ∀ (xs : List (String × Nat)) (acc : String × Nat),
      (acc = e ∨ (acc.2 < e.2 ∧ e ∈ xs)) →
      (∀ y ∈ xs, y ≠ e → y.2 < e.2) →
      xs.foldl (fun best item => if item.2 > best.2 then item else best) acc = e := by
  intro xs
  induction xs with
  | nil =>
    intro acc hacc _
    rcases hacc with heq | ⟨_, h⟩
    · simpa using heq
    · exact absurd h (List.not_mem_nil _)
  | cons y ys ih =>
    intro acc hacc hstrict
    simp only [List.foldl_cons]
    have hrest : ∀ z ∈ ys, z ≠ e → z.2 < e.2 :=
      fun z hz => hstrict z (List.mem_cons_of_mem _ hz)
    rcases hacc with heq | ⟨hlt, hmem⟩
    · by_cases hy : y = e
      · rw [heq, hy, if_neg (lt_irrefl e.2)]
        exact ih e (Or.inl rfl) hrest
      · have hylt : y.2 < e.2 := hstrict y (List.mem_cons_self _ _) hy
        rw [heq, if_neg (show ¬ (y.2 > e.2) by omega)]
        exact ih e (Or.inl rfl) hrest
    · rcases List.mem_cons.mp hmem with heq2 | hmem'
      · rw [← heq2, if_pos (show e.2 > acc.2 by omega)]
        exact ih e (Or.inl rfl) hrest
      · by_cases hy : y = e
        · rw [hy, if_pos (show e.2 > acc.2 by omega)]
          exact ih e (Or.inl rfl) hrest
        · have hylt : y.2 < e.2 := hstrict y (List.mem_cons_self _ _) hy
          by_cases hcmp : y.2 > acc.2
          · rw [if_pos hcmp]
            exact ih y (Or.inr ⟨hylt, hmem'⟩) hrest
          · rw [if_neg hcmp]
            exact ih acc (Or.inr ⟨hlt, hmem'⟩) hrest

theorem pickBest_eq (e : String × Nat) (l : List (String × Nat))
    (he : e ∈ l) (hstrict : ∀ y ∈ l, y ≠ e → y.2 < e.2) :
    pickBest l = some e.1 := by
  cases l with
  | nil => exact absurd he (List.not_mem_nil e)
  | cons x xs =>
    simp only [pickBest]
    have hacc : x = e ∨ (x.2 < e.2 ∧ e ∈ xs) := by
      by_cases hx : x = e
      · exact Or.inl hx
      · rcases List.mem_cons.mp he with rfl | hmem
        · exact Or.inl rfl
        · exact Or.inr ⟨hstrict x (List.mem_cons_self _ _) hx, hmem⟩
    rw [foldl_pickMax_eq e xs x hacc
      (fun y hy => hstrict y (List.mem_cons_of_mem _ hy))]

theorem foldl_add_counts (f : String → Nat) :
    ∀ (l : List String) (n : Nat),
      l.foldl (fun acc h => acc + f h) n = n + (l.map f).sum := by
  intro l
  induction l with
  | nil => intro n; simp
  | cons h t ih =>
    intro n
    simp only [List.foldl_cons, List.map_cons, List.sum_cons, ih]
    omega

theorem keys_nodup_unique : ∀ (l : List (String × List String)),
    (l.map Prod.fst).Nodup →
    ∀ a b c, (a, b) ∈ l → (a, c) ∈ l → b = c := by
  intro l
  induction l with
  | nil => intro _ a b c hb _; exact absurd hb (List.not_mem_nil _)
  | cons p ps ih =>
    intro hnd a b c hb hc
    simp only [List.map_cons, List.nodup_cons] at hnd
    rcases List.mem_cons.mp hb with hb1 | hb2 <;>
      rcases List.mem_cons.mp hc with hc1 | hc2
    · rw [← hb1] at hc1
      exact (Prod.mk.injEq _ _ _ _).mp hc1.symm |>.2
    · exfalso
      apply hnd.1
      rw [← hb1]
      exact List.mem_map.mpr ⟨(a, c), hc2, rfl⟩
    · exfalso
      apply hnd.1
      rw [← hc1]
      exact List.mem_map.mpr ⟨(a, b), hb2, rfl⟩
    · exact ih hnd.2 a b c hb2 hc2

/-- For an available module with an all-non-empty hint list, the count the
source computes is exactly the sum of per-hint substring counts. -/
theorem moduleCount_of_available (reg : Registry) (text : String)
    (p : String × List String)
    (hav : reg.available.contains p.1 = true)
    (hf : p.2.filter (fun h => h ≠ "") = p.2) :
    moduleCount reg text p =
      (if (p.2.map (fun h => strCount text h)).sum ≠ 0 then
        some (p.1, (p.2.map (fun h => strCount text h)).sum) else none) := by
  simp only [moduleCount, hav, if_true, hf, foldl_add_counts, Nat.zero_add]

/-- Keyword inference returns a module that is the unique strict maximizer of
the keyword score among the available modules of the hint table. -/
theorem inferModule_of_strict_max (reg : Registry) (ptext m : String)
    (hm : List String)
    (htext : pyStrip (pyLower ptext) ≠ "")
    (hmem : (m, hm) ∈ MODULE_HINTS)
    (hav : reg.available.contains m = true)
    (hpos : 0 < hintScore ptext hm)
    (hmax : ∀ p ∈ MODULE_HINTS, p.1 ≠ m → reg.available.contains p.1 = true →
      hintScore ptext p.2 < hintScore ptext hm) :
    inferModule reg ptext = some m := by
  have hfilter : ∀ p ∈ MODULE_HINTS, p.2.filter (fun h => h ≠ "") = p.2 := by decide
  have hnodup : (MODULE_HINTS.map Prod.fst).Nodup := by decide
  have hscore : ∀ hints : List String,
      (hints.map (fun h => strCount (pyLower ptext) h)).sum = hintScore ptext hints :=
    fun hints => rfl
  have he_mem : (m, hintScore ptext hm) ∈
      MODULE_HINTS.filterMap (moduleCount reg (pyLower ptext)) := by
    refine List.mem_filterMap.mpr ⟨(m, hm), hmem, ?_⟩
    rw [moduleCount_of_available reg (pyLower ptext) (m, hm) hav (hfilter _ hmem)]
    rw [if_pos (show ((m, hm).2.map (fun h => strCount (pyLower ptext) h)).sum ≠ 0 by
      show (hm.map (fun h => strCount (pyLower ptext) h)).sum ≠ 0
      rw [hscore]
      omega)]
    rfl
  have hstrict : ∀ y ∈ MODULE_HINTS.filterMap (moduleCount reg (pyLower ptext)),
      y ≠ (m, hintScore ptext hm) → y.2 < hintScore ptext hm := by
    intro y hy hne
    obtain ⟨p, hp, hFp⟩ := List.mem_filterMap.mp hy
    by_cases hpa : reg.available.contains p.1 = true
    · rw [moduleCount_of_available reg (pyLower ptext) p hpa (hfilter _ hp)] at hFp
      by_cases hz : (p.2.map (fun h => strCount (pyLower ptext) h)).sum ≠ 0
      · rw [if_pos hz] at hFp
        have hy_eq : y = (p.1, hintScore ptext p.2) := by
          rw [← hscore]
          exact (Option.some.injEq _ _).mp hFp |>.symm
        by_cases hpm : p.1 = m
        · exfalso
          have hsnd : p.2 = hm := by
            refine keys_nodup_unique MODULE_HINTS hnodup m p.2 hm ?_ hmem
            rw [← hpm]
            exact hp
          apply hne
          rw [hy_eq, hpm, hsnd]
        · have := hmax p hp hpm hpa
          rw [hy_eq]
          exact this
      · rw [if_neg hz] at hFp
        exact absurd hFp (by simp)
    · simp only [moduleCount] at hFp
      rw [if_neg hpa] at hFp
      exact absurd hFp (by simp)
  have hpick := pickBest_eq (m, hintScore ptext hm)
    (MODULE_HINTS.filterMap (moduleCount reg (pyLower ptext))) he_mem hstrict
  simp only [inferModule]
  rw [if_neg htext, hpick]

/-- C3 (amended).  With no valid explicit module, the resolver scores every
*available* module of the keyword table by summing case-insensitive substring
occurrence counts of its fixed keyword list in the free text; a module whose
score is positive and strictly highest among the available modules is the
inference result, and resolution returns it when it is enabled and the
default module when it is disabled. -/
theorem module_keyword_resolution (reg : Registry) (ptext m : String)
    (hm : List String)
    (htext : pyStrip (pyLower ptext) ≠ "")
    (hmem : (m, hm) ∈ MODULE_HINTS)
    (hav : reg.available.contains m = true)
    (hpos : 0 < hintScore ptext hm)
    (hmax : ∀ p ∈ MODULE_HINTS, p.1 ≠ m → reg.available.contains p.1 = true →
      hintScore ptext p.2 < hintScore ptext hm) :
    inferModule reg ptext = some m ∧
    resolveModule reg none (some ptext) =
      (if isModuleEnabled reg m then Except.ok m else defaultModule reg) := by
  have hinf := inferModule_of_strict_max reg ptext m hm htext hmem hav hpos hmax
  refine ⟨hinf, ?_⟩
  simp only [resolveModule, Option.getD]
  rw [if_neg (by simp [pyLower, pyStrip])]
  rw [hinf]

/-- Witness for C3 (amended): "inventory stock" scores 2 for logistics and 0
for every other module, so inference and resolution pick logistics. -/
theorem module_keyword_resolution_witness :
    inferModule regAll "inventory stock" = some "logistics" ∧
    resolveModule regAll none (some "inventory stock") = Except.ok "logistics" := by
  have h := module_keyword_resolution regAll "inventory stock" "logistics"
    ["inventory", "logistic", "stock", "warehouse", "shipping", "delivery",
      "fulfillment", "transport"]
    (by decide) (by decide) (by decide) (by decide) (by decide)
  refine ⟨h.1, ?_⟩
  rw [h.2]
  rfl

/-- Counterexample for C3 as stated: the free text "transport" consists of a
single keyword of module "logistics", and "logistics" is enabled, yet
resolution returns "purchasing" — the purchasing keyword "po" occurs inside
"trans-po-rt", the two modules tie at score 1, and Python's `max` keeps the
first of the maximal entries in table order ("purchasing" precedes
"logistics"). -/
theorem module_inference_cex :
    resolveModule regAll none (some "transport") = Except.ok "purchasing" ∧
    isModuleEnabled regAll "logistics" = true ∧
    "purchasing" ≠ "logistics" :=
  ⟨rfl, rfl, by decide⟩

/-! ## Guardrail theorems -/

/-- A null-rate check with complete configuration invokes the predicate
exactly once per call, whatever the predicate answers. -/
theorem null_invoke_count (nm : String) (ncfg : String → Option (List NullCheck))
    (ntool : Nat → NullOutcome) (ncalls : Nat) (check : NullCheck)
    (t c : String) (thr : ℚ)
    (hcfg : ncfg nm = some [check])
    (ht : check.table = some t) (htne : ¬ t = "")
    (hc : check.column = some c) (hcne : ¬ c = "")
    (hthr : check.max_null_rate = some thr) :
    (runNullRateGuardrail nm ncfg ntool ncalls).2 = ncalls + 1 := by
  simp only [runNullRateGuardrail, hcfg, runNullChecks, ht, hc, hthr]
  rw [if_neg (by push_neg; exact ⟨htne, hcne⟩)]
  cases ntool ncalls with
  | invalidJson msg => rfl
  | payload d =>
    by_cases he : truthyOptStr d.errorKey = true
    · simp only [he, if_true]
    · simp only [Bool.not_eq_true] at he
      simp only [he, Bool.false_eq_true, if_false]
      cases d.null_rate with
      | none => rfl
      | some rate =>
        show (if rate > thr then
            (GuardrailResult.failure ("Null-rate guardrail exceeded for " ++ t ++ "." ++ c),
             ncalls + 1)
          else (GuardrailResult.success, ncalls + 1)).2 = ncalls + 1
        split_ifs <;> rfl

/-- C7.  A complete null-rate check fails when the predicate errors, and on a
numeric answer fails exactly when the measured rate strictly exceeds the
threshold. -/
theorem null_rate_threshold (module : String)
    (cfg : String → Option (List NullCheck)) (check : NullCheck)
    (tool : Nat → NullOutcome) (calls : Nat) (t c : String) (thr : ℚ)
    (hcfg : cfg module = some [check])
    (ht : check.table = some t) (htne : ¬ t = "")
    (hc : check.column = some c) (hcne : ¬ c = "")
    (hthr : check.max_null_rate = some thr) :
    (∀ em, em ≠ "" →
      tool calls = NullOutcome.payload { errorKey := some em, null_rate := none } →
      (runNullRateGuardrail module cfg tool calls).1.ok = false) ∧
    (∀ q, tool calls = NullOutcome.payload { errorKey := none, null_rate := some q } →
      ((runNullRateGuardrail module cfg tool calls).1.ok = false ↔ thr < q)) := by
  constructor
  · intro em hem htool
    simp only [runNullRateGuardrail, hcfg, runNullChecks, ht, hc, hthr, htool]
    rw [if_neg (by push_neg; exact ⟨htne, hcne⟩)]
    simp [truthyOptStr, hem, GuardrailResult.failure]
  · intro q htool
    simp only [runNullRateGuardrail, hcfg, runNullChecks, ht, hc, hthr, htool]
    rw [if_neg (by push_neg; exact ⟨htne, hcne⟩)]
    simp only [truthyOptStr, bne_self_eq_false, Bool.false_eq_true, if_false]
    by_cases hq : q > thr
    · rw [if_pos hq]
      exact iff_of_true rfl hq
    · rw [if_neg hq]
      exact iff_of_false (by simp [runNullChecks, GuardrailResult.success]) hq

/-- Witness for C7: with `max_null_rate = 0.1`, a measured rate of 0.15 fails
and a measured rate of 0.05 passes. -/
theorem null_rate_threshold_witness :
    (runNullRateGuardrail "m" nullCfg01 nullTool015 0).1.ok = false ∧
    (runNullRateGuardrail "m" nullCfg01
      (fun _ => NullOutcome.payload { errorKey := none, null_rate := some (5/100 : ℚ) })
      0).1.ok = true := by
  constructor
  · have h := (null_rate_threshold "m" nullCfg01 nullCheck01 nullTool015 0
      "t" "c" (1/10) rfl rfl (by decide) rfl (by decide) rfl).2 (15/100) rfl
    rw [h]
    norm_num
  · have h := (null_rate_threshold "m" nullCfg01 nullCheck01
      (fun _ => NullOutcome.payload { errorKey := none, null_rate := some (5/100 : ℚ) })
      0 "t" "c" (1/10) rfl rfl (by decide) rfl (by decide) rfl).2 (5/100) rfl
    cases hok : (runNullRateGuardrail "m" nullCfg01
        (fun _ => NullOutcome.payload { errorKey := none, null_rate := some (5/100 : ℚ) })
        0).1.ok with
    | false =>
      rw [hok] at h
      have : (1 : ℚ)/10 < 5/100 := h.mp rfl
      norm_num at this
    | true => rfl

/-- Skipping helper for C10: a list of incomplete null-rate checks runs to
success without invoking the predicate. -/
theorem runNullChecks_skip (tool : Nat → NullOutcome) (calls : Nat) :
    ∀ checks : List NullCheck,
      (∀ check ∈ checks, check.table = none ∨ check.table = some "" ∨
        check.column = none ∨ check.column = some "" ∨ check.max_null_rate = none) →
      runNullChecks checks tool calls = (GuardrailResult.success, calls) := by
  intro checks
  induction checks with
  | nil => intro _; rfl
  | cons check rest ih =>
    intro h
    have hc := h check (List.mem_cons_self _ _)
    have hrest := fun x hx => h x (List.mem_cons_of_mem _ hx)
    cases ht : check.table with
    | none =>
      simp only [runNullChecks, ht]
      exact ih hrest
    | some t =>
      cases hcol : check.column with
      | none =>
        simp only [runNullChecks, ht, hcol]
        exact ih hrest
      | some c2 =>
        cases hthr : check.max_null_rate with
        | none =>
          simp only [runNullChecks, ht, hcol, hthr]
          exact ih hrest
        | some r =>
          simp only [runNullChecks, ht, hcol, hthr]
          have hdisj : t = "" ∨ c2 = "" := by
            rcases hc with h1 | h1 | h1 | h1 | h1
            · rw [ht] at h1
              exact absurd h1 (by simp)
            · rw [ht] at h1
              exact Or.inl (Option.some.inj h1)
            · rw [hcol] at h1
              exact absurd h1 (by simp)
            · rw [hcol] at h1
              exact Or.inr (Option.some.inj h1)
            · rw [hthr] at h1
              exact absurd h1 (by simp)
          rw [if_pos hdisj]
          exact ih hrest

/-- C10.  A freshness entry missing the table or the timestamp column, and a
null-rate config whose entries all miss the table, the column or the
threshold, are skipped: the check returns Ok without invoking the underlying
predicate (assuming no cached entry for the module, for the freshness kind). -/
theorem guardrail_incomplete_skip :
    (∀ (module : String) (guardrails : String → Option FreshConfig)
        (cache : String → Option (Int × FreshPayload)) (now : Int)
        (tool : Nat → FreshOutcome) (calls : Nat) (cfg : FreshConfig),
      guardrails module = some cfg →
      cache module = none →
      (truthyOptStr cfg.table = false ∨ truthyOptStr cfg.timestamp_column = false) →
      runFreshnessGuardrail module guardrails cache now tool calls =
        (GuardrailResult.success, cache, calls)) ∧
    (∀ (module : String) (guardrails : String → Option (List NullCheck))
        (tool : Nat → NullOutcome) (calls : Nat) (checks : List NullCheck),
      guardrails module = some checks →
      (∀ check ∈ checks, check.table = none ∨ check.table = some "" ∨
        check.column = none ∨ check.column = some "" ∨ check.max_null_rate = none) →
      runNullRateGuardrail module guardrails tool calls =
        (GuardrailResult.success, calls)) := by
  constructor
  · intro module guardrails cache now tool calls cfg hcfg hnc hinc
    simp only [runFreshnessGuardrail, hcfg, hnc, freshnessEvaluate]
    rw [if_pos hinc]
  · intro module guardrails tool calls checks hcfg hinc
    simp only [runNullRateGuardrail, hcfg]
    exact runNullChecks_skip tool calls checks hinc

/-- Witness for C10: a freshness entry with a table but no timestamp column,
and a null-rate entry with table and column but no threshold, both pass with
zero predicate invocations. -/
theorem guardrail_incomplete_skip_witness :
    runFreshnessGuardrail "m" (fun _ => some { table := some "t" })
      (fun _ => none) 0 (fun _ => FreshOutcome.payload {}) 0 =
      (GuardrailResult.success, fun _ => none, 0) ∧
    runNullRateGuardrail "m"
      (fun _ => some [{ table := some "t", column := some "c" }])
      (fun _ => NullOutcome.payload {}) 0 = (GuardrailResult.success, 0) := by
  constructor
  · exact guardrail_incomplete_skip.1 "m" (fun _ => some { table := some "t" })
      (fun _ => none) 0 (fun _ => FreshOutcome.payload {}) 0
      { table := some "t" } rfl rfl (Or.inr rfl)
  · exact guardrail_incomplete_skip.2 "m"
      (fun _ => some [{ table := some "t", column := some "c" }])
      (fun _ => NullOutcome.payload {}) 0
      [{ table := some "t", column := some "c" }] rfl
      (by intro check hc
          simp only [List.mem_singleton] at hc
          subst hc
          right; right; right; right; rfl)

/-- A freshness evaluation on a complete config that parses a payload caches
it at the current time and reports one predicate invocation. -/
theorem freshnessEvaluate_state (module : String) (cfg : FreshConfig)
    (cache : String → Option (Int × FreshPayload)) (now : Int)
    (tool : Nat → FreshOutcome) (calls : Nat) (d : FreshPayload)
    (hcomp : ¬ (truthyOptStr cfg.table = false ∨
      truthyOptStr cfg.timestamp_column = false))
    (htool : tool calls = FreshOutcome.payload d) :
    (freshnessEvaluate module cfg cache now tool calls).2 =
      (updateMap cache module (now, d), calls + 1) := by
  simp only [freshnessEvaluate, htool]
  rw [if_neg hcomp]
  by_cases he : truthyOptStr d.errorKey = true
  · simp only [he, eq_self_iff_true, if_true]
  · simp only [Bool.not_eq_true] at he
    simp only [he, Bool.false_eq_true, if_false]
    by_cases hl : d.latest_timestamp = none
    · simp only [hl, eq_self_iff_true, if_true]
    · simp only [hl, if_false]

/-- A freshness evaluation on a complete config invokes the predicate exactly
once, whatever it answers. -/
theorem freshnessEvaluate_calls (module : String) (cfg : FreshConfig)
    (cache : String → Option (Int × FreshPayload)) (now : Int)
    (tool : Nat → FreshOutcome) (calls : Nat)
    (hcomp : ¬ (truthyOptStr cfg.table = false ∨
      truthyOptStr cfg.timestamp_column = false)) :
    (freshnessEvaluate module cfg cache now tool calls).2.2 = calls + 1 := by
  cases h : tool calls with
  | invalidJson msg =>
    simp only [freshnessEvaluate]
    rw [if_neg hcomp, h]
  | payload d =>
    rw [freshnessEvaluate_state module cfg cache now tool calls d hcomp h]

/-- C2 (amended).  Caching applies to the freshness guardrail only.  For a
module with a complete freshness config and no prior cache entry: the first
check invokes the predicate once and caches the parsed payload at the check
time; a second check strictly less than `ttl_seconds` later answers from the
cache without invoking again — failing exactly when the cached payload
contains an `error` key (so a cached "no recent data" failure replays as
Ok) — while a second check at least `ttl_seconds` later invokes again.  The
null-rate guardrail has no cache: every call on a complete check invokes the
predicate. -/
theorem guardrail_ttl_cache
    (module : String) (guardrails : String → Option FreshConfig)
    (cache0 : String → Option (Int × FreshPayload)) (now1 now2 : Int)
    (tool : Nat → FreshOutcome) (cfg : FreshConfig) (pl : FreshPayload)
    (hcfg : guardrails module = some cfg)
    (hnc : cache0 module = none)
    (htable : truthyOptStr cfg.table = true)
    (htscol : truthyOptStr cfg.timestamp_column = true)
    (htool : tool 0 = FreshOutcome.payload pl) :
    (runFreshnessGuardrail module guardrails cache0 now1 tool 0).2.2 = 1 ∧
    (runFreshnessGuardrail module guardrails cache0 now1 tool 0).2.1 module =
      some (now1, pl) ∧
    (now2 - now1 < cfg.ttl_seconds.getD 300 →
      (runFreshnessGuardrail module guardrails
        (runFreshnessGuardrail module guardrails cache0 now1 tool 0).2.1 now2 tool
        (runFreshnessGuardrail module guardrails cache0 now1 tool 0).2.2).2.2 = 1 ∧
      (runFreshnessGuardrail module guardrails
        (runFreshnessGuardrail module guardrails cache0 now1 tool 0).2.1 now2 tool
        (runFreshnessGuardrail module guardrails cache0 now1 tool 0).2.2).1 =
        (if pl.errorKey.isSome then GuardrailResult.failure (pl.errorKey.getD "")
         else GuardrailResult.success)) ∧
    (cfg.ttl_seconds.getD 300 ≤ now2 - now1 →
      (runFreshnessGuardrail module guardrails
        (runFreshnessGuardrail module guardrails cache0 now1 tool 0).2.1 now2 tool
        (runFreshnessGuardrail module guardrails cache0 now1 tool 0).2.2).2.2 = 2) ∧
    (∀ (nm : String) (ncfg : String → Option (List NullCheck))
        (ntool : Nat → NullOutcome) (ncalls : Nat) (check : NullCheck)
        (t c : String) (thr : ℚ),
      ncfg nm = some [check] → check.table = some t → ¬ t = "" →
      check.column = some c → ¬ c = "" → check.max_null_rate = some thr →
      (runNullRateGuardrail nm ncfg ntool ncalls).2 = ncalls + 1) := by
  have hcomplete : ¬ (truthyOptStr cfg.table = false ∨
      truthyOptStr cfg.timestamp_column = false) := by
    simp [htable, htscol]
  have hr1snd : (runFreshnessGuardrail module guardrails cache0 now1 tool 0).2 =
      (updateMap cache0 module (now1, pl), 1) := by
    simp only [runFreshnessGuardrail, hcfg, hnc]
    exact freshnessEvaluate_state module cfg cache0 now1 tool 0 pl hcomplete htool
  have hc1 : (runFreshnessGuardrail module guardrails cache0 now1 tool 0).2.1 module =
      some (now1, pl) := by
    rw [hr1snd]
    simp [updateMap]
  refine ⟨by rw [hr1snd], hc1, ?_, ?_, ?_⟩
  · intro hlt
    rw [hr1snd]
    simp only [runFreshnessGuardrail, hcfg, updateMap, eq_self_iff_true, if_true]
    rw [if_pos hlt]
    exact ⟨rfl, rfl⟩
  · intro hge
    rw [hr1snd]
    simp only [runFreshnessGuardrail, hcfg, updateMap, eq_self_iff_true, if_true]
    rw [if_neg (by omega)]
    exact freshnessEvaluate_calls module cfg _ now2 tool 1 hcomplete
  · intro nm ncfg ntool ncalls check t c thr hcfg2 ht htne hc2 hcne hthr
    exact null_invoke_count nm ncfg ntool ncalls check t c thr hcfg2 ht htne hc2 hcne hthr

/-- Witness for C2 (amended): a complete freshness config with a predicate
answering a fresh timestamp; two checks 10 seconds apart under a 300-second
TTL keep the call count at 1, two checks 400 seconds apart raise it to 2; a
complete null-rate check always increments the call count. -/
theorem guardrail_ttl_cache_witness :
    (runFreshnessGuardrail "m"
      (fun _ => some { table := some "t", timestamp_column := some "ts" })
      (fun _ => none) 0
      (fun _ => FreshOutcome.payload { latest_timestamp := some 99 }) 0).2.2 = 1 ∧
    (runFreshnessGuardrail "m"
      (fun _ => some { table := some "t", timestamp_column := some "ts" })
      (runFreshnessGuardrail "m"
        (fun _ => some { table := some "t", timestamp_column := some "ts" })
        (fun _ => none) 0
        (fun _ => FreshOutcome.payload { latest_timestamp := some 99 }) 0).2.1 10
      (fun _ => FreshOutcome.payload { latest_timestamp := some 99 })
      (runFreshnessGuardrail "m"
        (fun _ => some { table := some "t", timestamp_column := some "ts" })
        (fun _ => none) 0
        (fun _ => FreshOutcome.payload { latest_timestamp := some 99 }) 0).2.2).2.2 = 1 ∧
    (runFreshnessGuardrail "m"
      (fun _ => some { table := some "t", timestamp_column := some "ts" })
      (runFreshnessGuardrail "m"
        (fun _ => some { table := some "t", timestamp_column := some "ts" })
        (fun _ => none) 0
        (fun _ => FreshOutcome.payload { latest_timestamp := some 99 }) 0).2.1 400
      (fun _ => FreshOutcome.payload { latest_timestamp := some 99 })
      (runFreshnessGuardrail "m"
        (fun _ => some { table := some "t", timestamp_column := some "ts" })
        (fun _ => none) 0
        (fun _ => FreshOutcome.payload { latest_timestamp := some 99 }) 0).2.2).2.2 = 2 ∧
    (runNullRateGuardrail "m" nullCfg01 nullTool015 0).2 = 1 := by
  have h1 := guardrail_ttl_cache "m"
    (fun _ => some { table := some "t", timestamp_column := some "ts" })
    (fun _ => none) 0 10
    (fun _ => FreshOutcome.payload { latest_timestamp := some 99 })
    { table := some "t", timestamp_column := some "ts" }
    { latest_timestamp := some 99 } rfl rfl rfl rfl rfl
  have h2 := guardrail_ttl_cache "m"
    (fun _ => some { table := some "t", timestamp_column := some "ts" })
    (fun _ => none) 0 400
    (fun _ => FreshOutcome.payload { latest_timestamp := some 99 })
    { table := some "t", timestamp_column := some "ts" }
    { latest_timestamp := some 99 } rfl rfl rfl rfl rfl
  refine ⟨h1.1, (h1.2.2.1 (by norm_num)).1, h2.2.2.2.1 (by norm_num), ?_⟩
  exact h1.2.2.2.2 "m" nullCfg01 nullTool015 0 nullCheck01 "t" "c" (1/10)
    rfl rfl (by decide) rfl (by decide) rfl

/-- Counterexample for C2 as stated: a module whose null-rate guardrail has a
complete configured check; two checks in immediate succession (0 seconds
apart, hence within any `ttl_seconds`) invoke the underlying predicate once
each — two invocations in total, not at most one.  The null-rate guardrail
performs no caching at all. -/
theorem guardrail_cache_cex :
    (runNullRateGuardrail "m" nullCfg01 nullTool015 0).2 = 1 ∧
    (runNullRateGuardrail "m" nullCfg01 nullTool015
      (runNullRateGuardrail "m" nullCfg01 nullTool015 0).2).2 = 2 ∧
    ¬ (2 ≤ 1) := by
  have h1 := null_invoke_count "m" nullCfg01 nullTool015 0 nullCheck01
    "t" "c" (1/10) rfl rfl (by decide) rfl (by decide) rfl
  have h2 := null_invoke_count "m" nullCfg01 nullTool015 1 nullCheck01
    "t" "c" (1/10) rfl rfl (by decide) rfl (by decide) rfl
  refine ⟨h1, ?_, by decide⟩
  rw [h1]
  exact h2

/-! ## Workflow executor theorems -/

/-- With at least one registered module, `_default_module` never raises. -/
theorem defaultModule_ok (reg : Registry) (hav : reg.available ≠ []) :
    ∃ m, defaultModule reg = Except.ok m := by
  cases hen : reg.enabled.isEmpty with
  | false =>
    by_cases hc : reg.enabled.contains "inference"
    · refine ⟨"inference", ?_⟩
      simp only [defaultModule, hen]
      rw [if_pos (show (!false) = true from rfl), if_pos hc]
    · refine ⟨sortedHead reg.enabled, ?_⟩
      simp only [defaultModule, hen]
      rw [if_pos (show (!false) = true from rfl), if_neg hc]
  | true =>
    have hav' : reg.available.isEmpty = false := by
      cases h : reg.available with
      | nil => exact absurd h hav
      | cons x xs => rfl
    by_cases hc : reg.available.contains "inference"
    · refine ⟨"inference", ?_⟩
      simp only [defaultModule, hen, hav']
      rw [if_pos (show (!false) = true from rfl), if_pos hc,
        if_neg (show ¬ ((!true) = true) by simp)]
    · refine ⟨sortedHead reg.available, ?_⟩
      simp only [defaultModule, hen, hav']
      rw [if_pos (show (!false) = true from rfl), if_neg hc,
        if_neg (show ¬ ((!true) = true) by simp)]

/-- With at least one registered module, module resolution never raises. -/
theorem resolveModule_ok (reg : Registry) (req input : Option String)
    (hav : reg.available ≠ []) :
    ∃ m, resolveModule reg req input = Except.ok m := by
  obtain ⟨dm, hdm⟩ := defaultModule_ok reg hav
  simp only [resolveModule]
  split
  · exact ⟨_, rfl⟩
  · cases hinf : inferModule reg (input.getD "") with
    | none => exact ⟨dm, hdm⟩
    | some inferred =>
      by_cases hen : isModuleEnabled reg inferred
      · refine ⟨inferred, ?_⟩
        show (if isModuleEnabled reg inferred then Except.ok inferred
          else defaultModule reg) = Except.ok inferred
        rw [if_pos hen]
      · refine ⟨dm, ?_⟩
        show (if isModuleEnabled reg inferred then Except.ok inferred
          else defaultModule reg) = Except.ok dm
        rw [if_neg hen]
        exact hdm

/-- Singleton error responses carry the `error` key. -/
theorem rgetVal_error_singleton (v : PyVal) :
    rgetVal [("error", v)] "error" = some v := rfl

/-- If the resolved module's handler raises on every input, the core of
`route_query` returns a response with an `error` key, whichever failure
branch (disabled module, guardrail, validation, execution) is taken. -/
theorem routeQueryCore_error_of_exc (env : RouteEnv) (gs : GuardState)
    (requested resolved traceId : String) (query : QueryData)
    (hexc : ∀ inp, ∃ msg, env.execAgent resolved inp = ExecOutcome.exc msg) :
    rgetVal (routeQueryCore env gs requested resolved traceId query).1 "error" ≠ none := by
  simp only [routeQueryCore]
  cases henb : isModuleEnabled env.reg resolved with
  | false =>
    rw [if_pos (show (!false) = true from rfl)]
    simp [rgetVal_error_singleton]
  | true =>
    rw [if_neg (show ¬ ((!true) = true) by simp)]
    cases hok : (runGuardrails env gs resolved).1.ok with
    | false =>
      rw [if_pos (show (!false) = true from rfl)]
      simp [rgetVal_error_singleton]
    | true =>
      rw [if_neg (show ¬ ((!true) = true) by simp)]
      cases hfw : AgentTaskInput.fromWorkflow resolved query with
      | error msg => simp [rgetVal_error_singleton]
      | ok agentInput =>
        obtain ⟨msg, hmsg⟩ := hexc agentInput
        simp [hmsg, rgetVal_error_singleton]

/-- Each failure kind a step can hit — disabled module, failed guardrail
(on the state the step runs with), failed input validation, raising
handler — independently forces an `error` key in the core's response. -/
theorem routeQueryCore_error_cases (env : RouteEnv) (gs : GuardState)
    (requested resolved traceId : String) (query : QueryData) :
    (isModuleEnabled env.reg resolved = false →
      rgetVal (routeQueryCore env gs requested resolved traceId query).1 "error" ≠ none) ∧
    ((runGuardrails env gs resolved).1.ok = false →
      rgetVal (routeQueryCore env gs requested resolved traceId query).1 "error" ≠ none) ∧
    ((∃ msg, AgentTaskInput.fromWorkflow resolved query = Except.error msg) →
      rgetVal (routeQueryCore env gs requested resolved traceId query).1 "error" ≠ none) ∧
    ((∀ inp, ∃ msg, env.execAgent resolved inp = ExecOutcome.exc msg) →
      rgetVal (routeQueryCore env gs requested resolved traceId query).1 "error" ≠ none) := by
  refine ⟨?_, ?_, ?_, ?_⟩
  · intro hdis
    simp only [routeQueryCore]
    rw [hdis, if_pos (show (!false) = true from rfl)]
    simp [rgetVal_error_singleton]
  · intro hgr
    simp only [routeQueryCore]
    cases henb : isModuleEnabled env.reg resolved with
    | false =>
      rw [if_pos (show (!false) = true from rfl)]
      simp [rgetVal_error_singleton]
    | true =>
      rw [if_neg (show ¬ ((!true) = true) by simp)]
      rw [hgr, if_pos (show (!false) = true from rfl)]
      simp [rgetVal_error_singleton]
  · rintro ⟨msg, hfw⟩
    simp only [routeQueryCore]
    cases henb : isModuleEnabled env.reg resolved with
    | false =>
      rw [if_pos (show (!false) = true from rfl)]
      simp [rgetVal_error_singleton]
    | true =>
      rw [if_neg (show ¬ ((!true) = true) by simp)]
      cases hok : (runGuardrails env gs resolved).1.ok with
      | false =>
        rw [if_pos (show (!false) = true from rfl)]
        simp [rgetVal_error_singleton]
      | true =>
        rw [if_neg (show ¬ ((!true) = true) by simp), hfw]
        simp [rgetVal_error_singleton]
  · exact routeQueryCore_error_of_exc env gs requested resolved traceId query

/-- C5.  With modules registered, `execute_workflow` runs all steps strictly
sequentially, returning exactly one entry per step in step order keyed by the
step's module value; each step's entry is the `route_query` response for the
guardrail state that step ran with, and it contains an `error` field whenever
the step's resolved module is disabled, its guardrail check fails, its input
fails validation, or its handler raises — while the remaining steps are still
executed. -/
theorem workflow_sequential_results (env : RouteEnv) (gs : GuardState)
    (steps : List WorkflowStep) (rid tid : Option String)
    (hav : env.reg.available ≠ []) :
    ∃ rs gs2, executeWorkflow env gs steps rid tid = Except.ok (rs, gs2) ∧
      rs.length = steps.length ∧
      rs.map Prod.fst = steps.map WorkflowStep.module ∧
      List.Forall₂ (fun (step : WorkflowStep)
          (entry : Option String × List (String × PyVal)) =>
        ∀ rm, resolveModule env.reg
            (some (pyLower (pyStrip (step.module.getD "")))) step.input =
            Except.ok rm →
          ∃ gsStep,
            entry.2 = (routeQueryCore env gsStep
              (pyLower (pyStrip (step.module.getD ""))) rm
              (orTruthy tid (orTruthy rid "N/A"))
              { input := step.input,
                session_id := some (step.session_id.getD "default"),
                trace_id := tid }).1 ∧
            (isModuleEnabled env.reg rm = false →
              rgetVal entry.2 "error" ≠ none) ∧
            ((runGuardrails env gsStep rm).1.ok = false →
              rgetVal entry.2 "error" ≠ none) ∧
            ((∃ msg, AgentTaskInput.fromWorkflow rm
              { input := step.input,
                session_id := some (step.session_id.getD "default"),
                trace_id := tid } = Except.error msg) →
              rgetVal entry.2 "error" ≠ none) ∧
            ((∀ inp, ∃ msg, env.execAgent rm inp = ExecOutcome.exc msg) →
              rgetVal entry.2 "error" ≠ none)) steps rs := by
  induction steps generalizing gs with
  | nil => exact ⟨[], gs, rfl, rfl, rfl, List.Forall₂.nil⟩
  | cons step rest ih =>
    obtain ⟨rm0, hrm0⟩ := resolveModule_ok env.reg
      (some (pyLower (pyStrip (step.module.getD ""))))
      step.input hav
    have hroute : routeQuery env gs step.module
        { input := step.input, session_id := some (step.session_id.getD "default"),
          trace_id := tid } rid =
        Except.ok (routeQueryCore env gs (pyLower (pyStrip (step.module.getD ""))) rm0
          (orTruthy tid (orTruthy rid "N/A"))
          { input := step.input, session_id := some (step.session_id.getD "default"),
            trace_id := tid }) := by
      simp only [routeQuery]
      rw [hrm0]
    obtain ⟨rs, gs2, hrun, hlen, hmap, hfa⟩ :=
      ih ((routeQueryCore env gs (pyLower (pyStrip (step.module.getD ""))) rm0
        (orTruthy tid (orTruthy rid "N/A"))
        { input := step.input, session_id := some (step.session_id.getD "default"),
          trace_id := tid }).2)
    refine ⟨(step.module,
        (routeQueryCore env gs (pyLower (pyStrip (step.module.getD ""))) rm0
          (orTruthy tid (orTruthy rid "N/A"))
          { input := step.input, session_id := some (step.session_id.getD "default"),
            trace_id := tid }).1) :: rs, gs2, ?_, ?_, ?_, ?_⟩
    · simp only [executeWorkflow, hroute, hrun]
    · simp only [List.length_cons, hlen]
    · simp only [List.map_cons, hmap]
    · refine List.Forall₂.cons ?_ hfa
      intro rm hrm
      have hrm_eq : rm = rm0 := by
        rw [hrm0] at hrm
        exact (Except.ok.inj hrm).symm
      subst hrm_eq
      have hcases := routeQueryCore_error_cases env gs
        (pyLower (pyStrip (step.module.getD ""))) rm
        (orTruthy tid (orTruthy rid "N/A"))
        { input := step.input, session_id := some (step.session_id.getD "default"),
          trace_id := tid }
      exact ⟨gs, rfl, hcases.1, hcases.2.1, hcases.2.2.1, hcases.2.2.2⟩

/-- Witness for C5: four explicit steps against the fixture where the
logistics handler raises and the fourth step's input is blank — four entries
in step order; applying the theorem yields the per-step facts, and direct
evaluation confirms the handler-raising and validation-failure entries (and
only those) carry an `error` field.  Under the contracts-enabled fixture with
a failing freshness predicate, the single step's guardrail fails and its
entry carries an `error` field. -/
theorem workflow_sequential_results_witness :
    (∃ rs gs2, executeWorkflow envW gsW stepsW none none = Except.ok (rs, gs2) ∧
      rs.length = 4 ∧
      rs.map Prod.fst =
        [some "sales", some "logistics", some "accounting", some "sales"]) ∧
    (match executeWorkflow envW gsW stepsW none none with
     | Except.ok (rs, _) => rs.map (fun e => (rgetVal e.2 "error").isSome)
     | Except.error _ => []) = [false, true, false, true] ∧
    (match executeWorkflow envG gsW
        [{ module := some "sales", input := some "quarterly report" }] none none with
     | Except.ok (rs, _) => rs.map (fun e => (rgetVal e.2 "error").isSome)
     | Except.error _ => []) = [true] := by
  refine ⟨?_, rfl, rfl⟩
  obtain ⟨rs, gs2, h1, h2, h3, _⟩ :=
    workflow_sequential_results envW gsW stepsW none none (by decide)
  exact ⟨rs, gs2, h1, h2.trans rfl, h3.trans rfl⟩

end Poseidon
